import Mathlib

/-!
Verification of the Expression_Spanish batch pipeline
(prepare_experiment.py, execute_experiment.py, generateResults.py).

The Python sources are embedded shallowly:
* the persisted Excel tracking table becomes a list of records,
* the failed-experiment text files become lists of experiment names
  (the empty list models an absent file),
* the file system and the remote OpenAI API become explicit function
  parameters,
* strings manipulated by regular expressions are modelled as lists of
  characters.
-/

namespace ExpressionSpanish

/-! ## Data model: tracking table (execute_experiment.py) -/

/-- One row of the batch-tracking table (columns created in
`create_batch_tracking_file`, execute_experiment.py lines 50-54). -/
structure TrackingRecord where
  experiment_name : String
  batch_file : String
  batch_id : String
  status : String
  timestamp : String
  file_hash : String
deriving DecidableEq, Repr

/-- The six column names of the tracking table
(execute_experiment.py lines 51-53). -/
def tracking_columns : List String :=
  ["experiment_name", "batch_file", "batch_id", "status", "timestamp", "file_hash"]

/-- A pandas DataFrame restricted to what the tracking code uses:
its column list and its rows. -/
structure TrackingDF where
  columns : List String
  rows : List TrackingRecord
deriving DecidableEq, Repr

/-- Outcome of trying to read the persisted tracking file:
the file may be absent, `pd.read_excel` may raise, or it yields a table. -/
inductive ReadOutcome where
  | absent
  | readError (msg : String)
  | ok (df : TrackingDF)

/-- Embeds `load_batch_tracking` (execute_experiment.py lines 58-76):
if the file exists and reads, return it; if reading raises, or the file
does not exist, return an empty DataFrame with the six tracking columns.
The outcome of the file-system interaction is the explicit argument. -/
def load_batch_tracking : ReadOutcome → TrackingDF
  | .absent => { columns := tracking_columns, rows := [] }
  | .readError _ => { columns := tracking_columns, rows := [] }
  | .ok df => df

/-- Embeds `update_batch_status` (execute_experiment.py lines 116-120):
`df.loc[df['batch_id'] == batch_id, 'status'] = status`. -/
def update_batch_status (batch_id status : String) (df : List TrackingRecord) :
    List TrackingRecord :=
  df.map (fun r => if r.batch_id == batch_id then { r with status := status } else r)

/-- Embeds `remove_batch_from_tracking` (execute_experiment.py lines 122-127):
`df = df[df['batch_id'] != batch_id]`. -/
def remove_batch_from_tracking (batch_id : String) (df : List TrackingRecord) :
    List TrackingRecord :=
  df.filter (fun r => r.batch_id != batch_id)

/-- Embeds `cleanup_empty_tracking_file` (execute_experiment.py lines 129-144)
acting on the persisted file state: `none` models an absent file, `some rows`
a present file holding `rows`.  If the file exists and the loaded table has
zero rows, the file is removed; otherwise it is left in place. -/
def cleanup_empty_tracking_file : Option (List TrackingRecord) → Option (List TrackingRecord)
  | none => none
  | some rows => if rows.length = 0 then none else some rows

/-- Embeds `get_batches_to_send` (execute_experiment.py lines 156-176).
`get_file_hash` maps a batch file name to the MD5 fingerprint of the file's
current content (get_file_hash, lines 89-99); the file system is fixed for
the duration of the call, so it enters as a function parameter. -/
def get_batches_to_send (experiment_name : String) (batch_files : List String)
    (df : List TrackingRecord) (get_file_hash : String → String) : List String :=
  let existing_batches := df.filter (fun r => r.experiment_name == experiment_name)
  batch_files.filter (fun batch_file =>
    (existing_batches.filter (fun r =>
      r.batch_file == batch_file && r.file_hash == get_file_hash batch_file)).isEmpty)

/-! ## Failed-experiment registry (execute_experiment.py) -/

/-- Embeds `add_failed_experiment_to_list` (execute_experiment.py lines
183-209): the registry file is read as its list of non-blank lines; the name
is appended only if not already present. -/
def add_failed_experiment_to_list (experiment_name : String) (failed : List String) :
    List String :=
  if failed.contains experiment_name then failed else failed ++ [experiment_name]

/-- Embeds `remove_experiment_from_failed_list` (execute_experiment.py lines
226-254): every line equal to the name is dropped; an empty result deletes
the file, which the empty list models. -/
def remove_experiment_from_failed_list (experiment_name : String) (failed : List String) :
    List String :=
  failed.filter (fun e => e != experiment_name)

/-! ## Status poller (execute_experiment.py, check_and_download_openai_batches) -/

/-- Answer of `client.batches.retrieve(batch_id)` together with the outcome of
the later `client.files.content(...)` fetch: `err` models the retrieve call
raising; in `ok`, `output = none` models the content fetch raising and
`output = some c` a successful fetch of artifact bytes `c`. -/
inductive RemoteOutcome where
  | err (msg : String)
  | ok (status : String) (output : Option String)

/-- Mutable state touched by one polling pass: the tracking table, the
execute-stage failed-experiment registry (failed_execute_exp.txt), and the
results files written so far (path, content). -/
structure PollState where
  tracking : List TrackingRecord
  failed_execute : List String
  results_files : List (String × String)
deriving DecidableEq, Repr

/-- The results-file name used at execute_experiment.py line 311:
f-string `{prefix}_results_{batch_id}_{date_string}.jsonl`. -/
def results_file_name (experiment_name batch_id date_string : String) : String :=
  experiment_name ++ "_results_" ++ batch_id ++ "_" ++ date_string ++ ".jsonl"

/-- Embeds the per-row body of `check_and_download_openai_batches`
(execute_experiment.py lines 289-335).  A retrieve error leaves the state
unchanged (caught at line 334).  Otherwise the stored status is updated when
it changed; on remote status "completed" the artifact is fetched (a fetch
error, caught at line 324, leaves the state as after the status update),
written to a results file, the row is removed from tracking and the
experiment removed from the failed registry; on "failed" or "cancelled" the
experiment is added to the failed registry (via `save_failed_experiment_info`,
lines 178-181) and the row removed from tracking. -/
def check_one_openai_batch (remote : String → RemoteOutcome) (date_string : String)
    (row : TrackingRecord) (st : PollState) : PollState :=
  match remote row.batch_id with
  | .err _ => st
  | .ok new_status output =>
    let st1 : PollState :=
      if new_status ≠ row.status then
        { st with tracking := update_batch_status row.batch_id new_status st.tracking }
      else st
    if new_status = "completed" then
      match output with
      | none => st1
      | some content =>
        let st2 := { st1 with results_files :=
          st1.results_files ++
            [(results_file_name row.experiment_name row.batch_id date_string, content)] }
        let st3 := { st2 with tracking := remove_batch_from_tracking row.batch_id st2.tracking }
        { st3 with failed_execute :=
          remove_experiment_from_failed_list row.experiment_name st3.failed_execute }
    else if new_status = "failed" ∨ new_status = "cancelled" then
      let st2 := { st1 with failed_execute :=
        add_failed_experiment_to_list row.experiment_name st1.failed_execute }
      { st2 with tracking := remove_batch_from_tracking row.batch_id st2.tracking }
    else st1

/-- Embeds the loop of `check_and_download_openai_batches` (lines 284-289):
the rows whose stored status is neither "downloaded" nor "failed" are
snapshotted and each is processed in order against the evolving state. -/
def check_and_download_openai_batches (remote : String → RemoteOutcome)
    (date_string : String) (st : PollState) : PollState :=
  let pending := st.tracking.filter
    (fun r => !(r.status == "downloaded" || r.status == "failed"))
  pending.foldl (fun s row => check_one_openai_batch remote date_string row s) st

/-! ## Task chunking (prepare_experiment.py, create_batch_files) -/

/-- Embeds the chunking of `create_batch_files` (prepare_experiment.py line
127): `[tasks[i:i + chunk_size] for i in range(0, len(tasks), chunk_size)]`.
A zero step makes `range` raise in Python; the only call site uses the
default `chunk_size = 50000`, so the zero case here returns `[]`. -/
def task_chunks {α : Type} : Nat → List α → List (List α)
  | _, [] => []
  | 0, _ :: _ => []
  | c + 1, t :: ts =>
    ((t :: ts).take (c + 1)) :: task_chunks (c + 1) ((t :: ts).drop (c + 1))
termination_by _ l => l.length
decreasing_by simp [List.length_drop]; omega

/-! ## Prompt templating (prepare_experiment.py, create_openai_tasks) -/

/-- The whitespace characters stripped by Python `str.strip()`
(restricted to the ASCII whitespace the pipeline's prompts use). -/
def py_whitespace : List Char := [' ', '\t', '\n', '\r', '\x0b', '\x0c']

/-- Python `str.strip(chars)`: remove leading and trailing characters
belonging to `cs`. -/
def strip_chars (cs : List Char) (l : List Char) : List Char :=
  ((l.dropWhile (fun c => cs.contains c)).reverse.dropWhile
    (fun c => cs.contains c)).reverse

/-- Python `str.strip()` with no argument. -/
def py_strip (l : List Char) : List Char := strip_chars py_whitespace l

/-- Embeds `re.search(r'\[([^\]]+)\]', prompt_template)`
(prepare_experiment.py line 90): scanning left to right, the first position
holding a literal `[` followed by one or more non-`]` characters and a
closing `]` yields the captured group; positions that fail move the scan one
character to the right, exactly as the regex engine retries. -/
def find_bracket_span : List Char → Option (List Char)
  | [] => none
  | c :: rest =>
    if c = '[' then
      let g := rest.takeWhile (fun d => d != ']')
      if g ≠ [] ∧ (rest.drop g.length).head? = some ']' then some g
      else find_bracket_span rest
    else find_bracket_span rest

/-- Python `str.replace(key, w)` (prepare_experiment.py line 99): replace
every left-to-right non-overlapping occurrence of `key`.  The source always
calls it with the non-empty key `"[" + group + "]"`; an empty key returns the
input unchanged here (Python would instead interleave `w` everywhere, a case
the program cannot reach). -/
def replace_all (key w : List Char) : List Char → List Char
  | [] => []
  | c :: cs =>
    if h : key ≠ [] ∧ key.isPrefixOf (c :: cs) then
      w ++ replace_all key w ((c :: cs).drop key.length)
    else c :: replace_all key w cs
termination_by l => l.length
decreasing_by
  · have hk : 1 ≤ key.length := by
      cases key with
      | nil => exact absurd rfl h.1
      | cons k ks => simp
    simp [List.length_drop]
    omega
  · simp

/-- The fallback placeholder `config.get('prompt_key',
'[insertar expresión aquí]')` (prepare_experiment.py line 95). -/
def default_prompt_key : List Char := "[insertar expresión aquí]".data

/-- The part of the task record the claims depend on: the correlation id and
the templated user-message content (prepare_experiment.py lines 101-115; the
remaining body fields are constants plus the configured model name). -/
structure OpenAITask where
  custom_id : String
  content : List Char
deriving DecidableEq, Repr

/-- Embeds the task-construction core of `create_openai_tasks`
(prepare_experiment.py lines 89-119), taking the already-loaded prompt
template text (the file load performed by `load_prompt_from_file` is modelled
at the caller): the placeholder is the first bracketed span if one exists,
else the configured or default `prompt_key`; each word is stripped and
substituted by `str.replace`, and `custom_id` numbers tasks from 1. -/
def create_openai_tasks (word_list : List (List Char)) (prompt_template : List Char)
    (cfg_prompt_key : Option (List Char)) (experiment_name : String) : List OpenAITask :=
  let prompt_key :=
    match find_bracket_span prompt_template with
    | some g => '[' :: (g ++ [']'])
    | none => cfg_prompt_key.getD default_prompt_key
  ((List.range word_list.length).zip word_list).map (fun p =>
    { custom_id := experiment_name ++ "_task_" ++ toString (p.1 + 1),
      content := replace_all prompt_key (py_strip p.2) prompt_template })

/-! ## Structured templates, used to state what substitution does -/

/-- A template assembled from bracket-free literal segments interleaved with
bracketed spans: `assemble seg0 [(s1, seg1), (s2, seg2)]` is the text
`seg0 [s1] seg1 [s2] seg2`. -/
def assemble : List Char → List (List Char × List Char) → List Char
  | seg0, [] => seg0
  | seg0, (sp, seg) :: rest => seg0 ++ ('[' :: (sp ++ [']'])) ++ assemble seg rest

/-- The same template after substituting the word `w` for every span whose
content equals `key_span`, leaving the other spans literal. -/
def subst_spans (key_span w : List Char) : List Char → List (List Char × List Char) → List Char
  | seg0, [] => seg0
  | seg0, (sp, seg) :: rest =>
    seg0 ++ (if sp = key_span then w else '[' :: (sp ++ [']'])) ++
      subst_spans key_span w seg rest

/-- A literal segment is well formed when it contains no bracket characters. -/
def seg_ok (seg : List Char) : Prop := '[' ∉ seg ∧ ']' ∉ seg

/-- A span is well formed when it is non-empty and contains no bracket
characters. -/
def span_ok (sp : List Char) : Prop := sp ≠ [] ∧ '[' ∉ sp ∧ ']' ∉ sp

instance (seg : List Char) : Decidable (seg_ok seg) := by
  unfold seg_ok
  infer_instance

instance (sp : List Char) : Decidable (span_ok sp) := by
  unfold span_ok
  infer_instance

/-! ## Result extraction (generateResults.py) -/

/-- The literal part of the pattern `r'La expresión es:\s*(.+?)\.'`
(generateResults.py line 32). -/
def la_expresion_lit : List Char := "La expresión es:".data

/-- Case-insensitive prefix test, modelling `re.IGNORECASE` matching of a
literal. -/
def starts_with_ci (pat s : List Char) : Bool :=
  (pat.map Char.toLower).isPrefixOf (s.map Char.toLower)

/-- The lazy group `(.+?)\.` applied at a fixed position: the group is the
shortest non-empty run of non-newline characters followed by a literal dot,
i.e. everything up to the first `.` at index ≥ 1. -/
def lazy_upto_dot : List Char → Option (List Char)
  | [] => none
  | b0 :: brest =>
    let pre := brest.takeWhile (fun c => c != '.')
    if (b0 :: pre).contains '\n' = false ∧ (brest.drop pre.length).head? = some '.' then
      some (b0 :: pre)
    else none

/-- `re.search` for `r'La expresión es:\s*(.+?)\.'` with `re.IGNORECASE`:
try each start position left to right; at a position where the literal
matches case-insensitively, skip the whitespace run (`\s*`, greedy) and take
the lazy group up to a dot; if the group fails (no dot, or a newline before
it) the scan resumes at the next character. -/
def extract_search : List Char → Option (List Char)
  | [] => none
  | c :: rest =>
    if starts_with_ci la_expresion_lit (c :: rest) then
      let after := (c :: rest).drop la_expresion_lit.length
      let body := after.dropWhile (fun d => py_whitespace.contains d)
      match lazy_upto_dot body with
      | some g => some g
      | none => extract_search rest
    else extract_search rest

/-- The quote characters stripped at generateResults.py line 38. -/
def quote_chars : List Char := ['"', '\'', '“', '”', '„']

/-- Embeds `extract_word_input` (generateResults.py lines 27-44): search the
pattern; on a match, strip whitespace then the quote characters from the
captured group; on no match return `None`. -/
def extract_word_input (text : List Char) : Option (List Char) :=
  match extract_search text with
  | some g => some (strip_chars quote_chars (py_strip g))
  | none => none

/-! ## Weighted-sum scoring (generateResults.py, calculate_weighted_sum_1_to_7) -/

/-- One entry of a `top_logprobs` list.  A `none` field models the key being
absent from the JSON dict, which raises `KeyError` in the source and is
caught; log-probabilities are idealized as real numbers and `np.exp` as the
real exponential. -/
structure TopLogprob where
  token : Option String
  logprob : Option ℝ

/-- `str(token).strip()` followed by the test
`token_str.isdigit() and len(token_str) == 1` and `int(token_str)`
(generateResults.py lines 60-63), for ASCII digits. -/
def parse_single_digit (t : String) : Option Nat :=
  match py_strip t.data with
  | [c] => if c.isDigit then some (c.toNat - '0'.toNat) else none
  | _ => none

/-- The accumulating loop of `calculate_weighted_sum_1_to_7`
(generateResults.py lines 54-72) with its `seen_numbers` set: a token whose
stripped text is a single digit with value in 1..7 and not yet seen
contributes `value * exp(logprob)` and marks the value seen; a missing
`logprob` key raises before `seen_numbers.add` runs, so the value stays
unseen; every other entry is skipped. -/
noncomputable def calc_aux : List TopLogprob → List Nat → ℝ
  | [], _ => 0
  | e :: rest, seen =>
    match e.token with
    | none => calc_aux rest seen
    | some t =>
      match parse_single_digit t with
      | none => calc_aux rest seen
      | some v =>
        if 1 ≤ v ∧ v ≤ 7 ∧ v ∉ seen then
          match e.logprob with
          | none => calc_aux rest seen
          | some lp => (v : ℝ) * Real.exp lp + calc_aux rest (v :: seen)
        else calc_aux rest seen

/-- Embeds `calculate_weighted_sum_1_to_7` (generateResults.py lines 50-72). -/
noncomputable def calculate_weighted_sum_1_to_7 (top_logprobs_list : List TopLogprob) : ℝ :=
  calc_aux top_logprobs_list []

/-- An entry that would be counted for digit `d`: well-formed token whose
stripped text parses to `d`, with a present log-probability. -/
def entry_matches (d : Nat) (e : TopLogprob) : Bool :=
  match e.token with
  | some t => (parse_single_digit t == some d) && e.logprob.isSome
  | none => false

/-- The contribution of digit `d` as the claim describes it: `d * exp(lp)`
taken from the first countable occurrence of `d`, else zero. -/
noncomputable def digit_contribution (d : Nat) (l : List TopLogprob) : ℝ :=
  match l.find? (entry_matches d) with
  | some e => (d : ℝ) * Real.exp (e.logprob.getD 0)
  | none => 0

/-- The claim-side reformulation: sum the contribution of each digit 1..7. -/
noncomputable def weighted_sum_by_digit (l : List TopLogprob) : ℝ :=
  ∑ d ∈ Finset.Icc 1 7, digit_contribution d l

/-! ## Prepare stage failure handling (prepare_experiment.py) -/

/-- One experiment entry of config.yaml's `experiments` mapping: each field
is `none` when the key is absent (prepare_experiment.py lines 221-229). -/
structure ExperimentConfig where
  dataset_name : Option String
  prompt : Option String
  model_name : Option String
  dataset_column : Option String
  prompt_key : Option String

/-- The file system seen by the prepare stage.  `datasets` models
`load_word_list` (lines 26-54): `none` for any of its raised failures
(missing file, no read permission, unsupported extension, missing column),
`some ws` for the loaded word list.  `prompts` models the raw prompt file
read of `load_prompt_from_file` (lines 57-77): `none` when the file is
missing or unreadable. -/
structure PrepareEnv where
  datasets : String → Option (List String)
  prompts : String → Option String

/-- Embeds `process_experiment` (prepare_experiment.py lines 212-246):
`True` exactly when the required config fields are present, the dataset
loads, the prompt name is non-empty and its file loads to non-blank text
(`load_prompt_from_file` strips and raises on empty, lines 67-70), and at
least one batch chunk results; every raised error is caught at line 244 and
yields `False`. -/
def process_experiment (experiment_name : String) (config : ExperimentConfig)
    (env : PrepareEnv) : Bool :=
  match config.dataset_name, config.prompt, config.model_name with
  | some ds, some pr, some _ =>
    match env.datasets ds with
    | none => false
    | some word_list =>
      if pr = "" then false
      else
        match env.prompts pr with
        | none => false
        | some raw =>
          let template := py_strip raw.data
          if template = [] then false
          else
            let tasks := create_openai_tasks (word_list.map String.data) template
              (config.prompt_key.map String.data) experiment_name
            !(task_chunks 50000 tasks).isEmpty
  | _, _, _ => false

/-- Embeds `update_failed_experiments` (prepare_experiment.py lines 200-209):
on success remove the first occurrence of the name (`list.remove`); on
failure append it unless present. -/
def update_failed_experiments (experiment_name : String) (success : Bool)
    (failed : List String) : List String :=
  if success then
    if failed.contains experiment_name then failed.erase experiment_name else failed
  else
    if failed.contains experiment_name then failed else failed ++ [experiment_name]

/-- The loop body of `process_multiple_experiments` (prepare_experiment.py
lines 277-283) acting on the prepare-stage failed registry: an experiment
absent from the config mapping is skipped with a warning and the registry is
not touched (the `continue` at line 280); otherwise the experiment is
processed and the registry updated with the outcome. -/
def pme_step (all_configs : List (String × ExperimentConfig)) (env : PrepareEnv)
    (acc : List String) (name : String) : List String :=
  match all_configs.lookup name with
  | none => acc
  | some cfg => update_failed_experiments name (process_experiment name cfg env) acc

/-- Embeds `process_multiple_experiments` (prepare_experiment.py lines
272-295): every named experiment is processed in order, regardless of
earlier failures. -/
def process_multiple_experiments (experiment_names : List String)
    (all_configs : List (String × ExperimentConfig)) (env : PrepareEnv)
    (failed : List String) : List String :=
  experiment_names.foldl (pme_step all_configs env) failed

/-! ## Sample data used by witnesses -/

/-- A concrete tracking record used to instantiate hypotheses. -/
def sample_record : TrackingRecord :=
  { experiment_name := "exp1_prompt", batch_file := "exp1_prompt_batch_0.jsonl",
    batch_id := "batch_abc", status := "submitted",
    timestamp := "2026-01-01 00:00:00", file_hash := "d41d8cd9" }

/-- A concrete poll state used to instantiate hypotheses. -/
def sample_state : PollState :=
  { tracking := [sample_record], failed_execute := ["exp1_prompt"], results_files := [] }

/-- A concrete prepare-stage environment with no datasets and no prompts. -/
def empty_env : PrepareEnv :=
  { datasets := fun _ => none, prompts := fun _ => none }

/-- A concrete config with all required fields present. -/
def good_config : ExperimentConfig :=
  { dataset_name := some "d.csv", prompt := some "p.txt", model_name := some "m",
    dataset_column := none, prompt_key := none }

/-- A concrete config missing the required `prompt` field. -/
def bad_config : ExperimentConfig :=
  { dataset_name := some "d.csv", prompt := none, model_name := some "m",
    dataset_column := none, prompt_key := none }

/-- A concrete environment where dataset and prompt loads succeed. -/
def sample_env : PrepareEnv :=
  { datasets := fun _ => some ["correr"], prompts := fun _ => some "Hola [w]." }

/-! ## Helper lemmas -/

theorem mem_remove_batch_ne (batch_id : String) (df : List TrackingRecord) :
    ∀ r ∈ remove_batch_from_tracking batch_id df, r.batch_id ≠ batch_id := by
  intro r hr
  simp only [remove_batch_from_tracking, List.mem_filter, bne_iff_ne, ne_eq,
    decide_not] at hr
  simpa using hr.2

theorem not_mem_remove_experiment (e : String) (l : List String) :
    e ∉ remove_experiment_from_failed_list e l := by
  simp [remove_experiment_from_failed_list, List.mem_filter]

theorem mem_add_failed (e : String) (l : List String) :
    e ∈ add_failed_experiment_to_list e l := by
  by_cases h : e ∈ l
  · simp [add_failed_experiment_to_list, h]
  · simp [add_failed_experiment_to_list, h]

theorem count_add_failed (e : String) (l : List String) (h : l.count e ≤ 1) :
    (add_failed_experiment_to_list e l).count e = 1 := by
  by_cases hm : e ∈ l
  · have h1 : 0 < l.count e := List.count_pos_iff.mpr hm
    simp only [add_failed_experiment_to_list, List.elem_iff, hm, if_true]
    omega
  · simp [add_failed_experiment_to_list, List.elem_iff, hm, List.count_append,
      List.count_eq_zero.mpr hm]

theorem task_chunks_join {α : Type} (c : Nat) (l : List α) :
    (task_chunks (c + 1) l).join = l := by
  have H : ∀ (n : Nat) (l : List α), l.length ≤ n → (task_chunks (c + 1) l).join = l := by
    intro n
    induction n with
    | zero =>
      intro l hl
      have : l = [] := List.length_eq_zero.mp (Nat.le_zero.mp hl)
      simp [this, task_chunks]
    | succ n ih =>
      intro l hl
      match l with
      | [] => simp [task_chunks]
      | t :: ts =>
        rw [task_chunks]
        have hlen : ((t :: ts).drop (c + 1)).length ≤ n := by
          simp only [List.length_drop, List.length_cons]
          simp only [List.length_cons] at hl
          omega
        simp only [List.join_cons, ih _ hlen]
        exact List.take_append_drop _ _
  exact H l.length l le_rfl

theorem task_chunks_getElem? {α : Type} (c : Nat) (l : List α) (i : Nat) :
    (task_chunks (c + 1) l)[i]? =
      if (c + 1) * i < l.length then some ((l.drop ((c + 1) * i)).take (c + 1))
      else none := by
  have H : ∀ (n : Nat) (l : List α) (i : Nat), l.length ≤ n →
      (task_chunks (c + 1) l)[i]? =
        if (c + 1) * i < l.length then some ((l.drop ((c + 1) * i)).take (c + 1))
        else none := by
    intro n
    induction n with
    | zero =>
      intro l i hl
      have : l = [] := List.length_eq_zero.mp (Nat.le_zero.mp hl)
      simp [this, task_chunks]
    | succ n ih =>
      intro l i hl
      match l with
      | [] => simp [task_chunks]
      | t :: ts =>
        rw [task_chunks]
        match i with
        | 0 =>
          simp [List.length_cons]
        | i + 1 =>
          have hlen : ((t :: ts).drop (c + 1)).length ≤ n := by
            simp only [List.length_drop, List.length_cons]
            simp only [List.length_cons] at hl
            omega
          simp only [List.getElem?_cons_succ, ih _ i hlen]
          rw [List.drop_drop, List.length_drop]
          have hmul : c + 1 + (c + 1) * i = (c + 1) * (i + 1) := by ring
          rw [hmul]
          have hlin : (c + 1) * i < (t :: ts).length - (c + 1) ↔
              (c + 1) * (i + 1) < (t :: ts).length := by
            have hexp : (c + 1) * (i + 1) = (c + 1) * i + (c + 1) := by ring
            omega
          by_cases hcond : (c + 1) * (i + 1) < (t :: ts).length
          · rw [if_pos (hlin.mpr hcond), if_pos hcond]
          · rw [if_neg (fun hc => hcond (hlin.mp hc)), if_neg hcond]
  exact H l.length l i le_rfl

theorem task_chunks_length_le {α : Type} (c : Nat) (l : List α) :
    ∀ ch ∈ task_chunks (c + 1) l, ch.length ≤ c + 1 := by
  have H : ∀ (n : Nat) (l : List α), l.length ≤ n →
      ∀ ch ∈ task_chunks (c + 1) l, ch.length ≤ c + 1 := by
    intro n
    induction n with
    | zero =>
      intro l hl
      have : l = [] := List.length_eq_zero.mp (Nat.le_zero.mp hl)
      simp [this, task_chunks]
    | succ n ih =>
      intro l hl ch hch
      match l with
      | [] => simp [task_chunks] at hch
      | t :: ts =>
        rw [task_chunks] at hch
        cases hch with
        | head => simpa using List.length_take_le (c + 1) (t :: ts)
        | tail _ hmem =>
          have hlen : ((t :: ts).drop (c + 1)).length ≤ n := by
            simp only [List.length_drop, List.length_cons]
            simp only [List.length_cons] at hl
            omega
          exact ih _ hlen ch hmem
  exact H l.length l le_rfl

theorem takeWhile_middle (p : Char → Bool) (a : List Char) (x : Char) (t : List Char)
    (ha : ∀ c ∈ a, p c = true) (hx : p x = false) :
    (a ++ x :: t).takeWhile p = a := by
  induction a with
  | nil => simp [List.takeWhile, hx]
  | cons c cs ih =>
    have hc : p c = true := ha c (by simp)
    simp only [List.cons_append, List.takeWhile_cons, hc, if_true]
    rw [ih (fun d hd => ha d (by simp [hd]))]

theorem replace_all_skip_char (kt w : List Char) (c : Char) (t : List Char)
    (hc : c ≠ '[') :
    replace_all ('[' :: kt) w (c :: t) = c :: replace_all ('[' :: kt) w t := by
  simp only [replace_all]
  rw [dif_neg]
  rintro ⟨-, hpre⟩
  simp only [List.isPrefixOf, Bool.and_eq_true, beq_iff_eq] at hpre
  exact hc hpre.1.symm

theorem replace_all_skip_seg (kt w seg t : List Char) (hseg : '[' ∉ seg) :
    replace_all ('[' :: kt) w (seg ++ t) = seg ++ replace_all ('[' :: kt) w t := by
  induction seg with
  | nil => simp
  | cons c cs ih =>
    have hc : c ≠ '[' := by
      intro h
      exact hseg (by simp [h])
    simp only [List.cons_append]
    rw [replace_all_skip_char _ _ _ _ hc, ih (fun h => hseg (by simp [h]))]

theorem closed_span_prefix_iff (a b t : List Char) (ha : ']' ∉ a) (hb : ']' ∉ b) :
    (a ++ [']']) <+: (b ++ ']' :: t) ↔ a = b := by
  induction a generalizing b with
  | nil =>
    cases b with
    | nil =>
      simp only [List.nil_append, List.cons_ne_nil, iff_true]
      exact (List.cons_prefix_cons).mpr ⟨rfl, List.nil_prefix⟩
    | cons x xs =>
      have hx : ¬(']' = x) := fun h => hb (by simp [h.symm])
      simp [List.cons_prefix_cons, hx]
  | cons y ys ih =>
    have hy : y ≠ ']' := fun h => ha (by simp [h])
    cases b with
    | nil => simp [List.cons_prefix_cons, hy]
    | cons x xs =>
      have ha' : ']' ∉ ys := fun h => ha (by simp [h])
      have hb' : ']' ∉ xs := fun h => hb (by simp [h])
      simp [List.cons_prefix_cons, ih xs ha' hb']

theorem replace_all_span (p sp w t : List Char) (hp : span_ok p) (hsp : span_ok sp) :
    replace_all ('[' :: (p ++ [']'])) w ('[' :: (sp ++ ']' :: t)) =
      (if sp = p then w else '[' :: (sp ++ [']'])) ++
        replace_all ('[' :: (p ++ [']'])) w t := by
  by_cases heq : sp = p
  · subst heq
    simp only [replace_all]
    rw [dif_pos]
    · have hdrop : ('[' :: (sp ++ ']' :: t)).drop ('[' :: (sp ++ [']'])).length = t := by
        simp only [List.length_cons, List.drop_succ_cons]
        rw [show sp ++ ']' :: t = (sp ++ [']']) ++ t by simp]
        exact List.drop_left _ _
      rw [hdrop]
      simp
    · refine ⟨by simp, ?_⟩
      rw [List.isPrefixOf_iff_prefix]
      rw [show sp ++ ']' :: t = (sp ++ [']']) ++ t by simp]
      exact (List.cons_prefix_cons).mpr ⟨rfl, List.prefix_append _ _⟩
  · have hnp : ¬ (('[' :: (p ++ [']'])) ≠ [] ∧
        ('[' :: (p ++ [']'])).isPrefixOf ('[' :: (sp ++ ']' :: t)) = true) := by
      rintro ⟨-, hpre⟩
      rw [List.isPrefixOf_iff_prefix, List.cons_prefix_cons] at hpre
      exact heq ((closed_span_prefix_iff p sp t hp.2.2 hsp.2.2).mp hpre.2).symm
    simp only [replace_all]
    rw [dif_neg hnp]
    rw [replace_all_skip_seg _ _ sp (']' :: t) hsp.2.1]
    rw [replace_all_skip_char _ _ ']' t (by decide)]
    simp [heq]

theorem replace_all_assemble (p w : List Char) (hp : span_ok p) :
    ∀ (spans : List (List Char × List Char)) (seg0 : List Char),
      seg_ok seg0 → (∀ pr ∈ spans, span_ok pr.1 ∧ seg_ok pr.2) →
      replace_all ('[' :: (p ++ [']'])) w (assemble seg0 spans) =
        subst_spans p w seg0 spans := by
  intro spans
  induction spans with
  | nil =>
    intro seg0 h0 _
    calc replace_all ('[' :: (p ++ [']'])) w (assemble seg0 [])
        = replace_all ('[' :: (p ++ [']'])) w (seg0 ++ []) := by rw [assemble]; simp
      _ = seg0 ++ replace_all ('[' :: (p ++ [']'])) w [] :=
          replace_all_skip_seg _ _ seg0 [] h0.1
      _ = subst_spans p w seg0 [] := by rw [subst_spans]; simp [replace_all]
  | cons pr rest ih =>
    intro seg0 h0 hall
    obtain ⟨sp, seg⟩ := pr
    have hsp : span_ok sp := (hall (sp, seg) (by simp)).1
    have hseg : seg_ok seg := (hall (sp, seg) (by simp)).2
    rw [assemble, subst_spans]
    rw [show seg0 ++ ('[' :: (sp ++ [']'])) ++ assemble seg rest =
      seg0 ++ ('[' :: (sp ++ ']' :: assemble seg rest)) by simp]
    rw [replace_all_skip_seg _ _ seg0 _ h0.1]
    rw [replace_all_span p sp w _ hp hsp]
    rw [ih seg hseg (fun q hq => hall q (List.mem_cons_of_mem _ hq))]
    simp

theorem find_bracket_span_skip_seg (seg t : List Char) (hseg : '[' ∉ seg) :
    find_bracket_span (seg ++ t) = find_bracket_span t := by
  induction seg with
  | nil => simp
  | cons c cs ih =>
    have hc : c ≠ '[' := fun h => hseg (by simp [h])
    simp only [List.cons_append, find_bracket_span, if_neg hc]
    exact ih (fun h => hseg (by simp [h]))

theorem find_bracket_span_at_span (sp t : List Char) (hsp : span_ok sp) :
    find_bracket_span ('[' :: (sp ++ ']' :: t)) = some sp := by
  rw [find_bracket_span]
  have htake : (sp ++ ']' :: t).takeWhile (fun d => d != ']') = sp := by
    refine takeWhile_middle _ sp ']' t (fun c hc => ?_) (by decide)
    simp only [bne_iff_ne, ne_eq, decide_eq_true_eq]
    intro h
    exact hsp.2.2 (h ▸ hc)
  rw [if_pos rfl]
  simp only [htake]
  rw [if_pos]
  refine ⟨hsp.1, ?_⟩
  rw [List.drop_left sp (']' :: t)]
  rfl

theorem update_ne_preserves_mem (e n : String) (b : Bool) (acc : List String)
    (hne : e ≠ n) (he : e ∈ acc) : e ∈ update_failed_experiments n b acc := by
  unfold update_failed_experiments
  split
  · split
    · exact (List.mem_erase_of_ne hne).mpr he
    · exact he
  · split
    · exact he
    · exact List.mem_append_left _ he

theorem update_ne_preserves_not_mem (f n : String) (b : Bool) (acc : List String)
    (hne : f ≠ n) (hf : f ∉ acc) : f ∉ update_failed_experiments n b acc := by
  unfold update_failed_experiments
  split
  · split
    · intro hmem
      exact hf (List.mem_of_mem_erase hmem)
    · exact hf
  · split
    · exact hf
    · intro hmem
      rcases List.mem_append.mp hmem with h | h
      · exact hf h
      · exact hne (by simpa using h)

theorem update_ne_count (f n : String) (b : Bool) (acc : List String) (hne : f ≠ n) :
    (update_failed_experiments n b acc).count f = acc.count f := by
  unfold update_failed_experiments
  split
  · split
    · exact List.count_erase_of_ne hne acc
    · rfl
  · split
    · rfl
    · have hnf : ¬ n = f := fun hh => hne hh.symm
      simp [List.count_append, List.count_cons, hne, hnf]

theorem not_mem_update_success (f : String) (acc : List String)
    (hcount : acc.count f ≤ 1) : f ∉ update_failed_experiments f true acc := by
  unfold update_failed_experiments
  rw [if_pos rfl]
  split
  next hc =>
    intro hmem
    have hmemacc : f ∈ acc := by simpa [List.elem_iff] using hc
    have h1 : 0 < acc.count f := List.count_pos_iff.mpr hmemacc
    have h2 : (acc.erase f).count f = acc.count f - 1 := List.count_erase_self f acc
    have h3 : 0 < (acc.erase f).count f := List.count_pos_iff.mpr hmem
    omega
  next hc =>
    intro hmem
    exact hc (by simpa [List.elem_iff] using hmem)

theorem pme_step_ne_preserves_mem (configs : List (String × ExperimentConfig))
    (env : PrepareEnv) (e n : String) (acc : List String)
    (hne : e ≠ n) (he : e ∈ acc) : e ∈ pme_step configs env acc n := by
  unfold pme_step
  cases h : configs.lookup n with
  | none => exact he
  | some cfg => exact update_ne_preserves_mem e n _ acc hne he

theorem pme_step_ne_preserves_not_mem (configs : List (String × ExperimentConfig))
    (env : PrepareEnv) (f n : String) (acc : List String)
    (hne : f ≠ n) (hf : f ∉ acc) : f ∉ pme_step configs env acc n := by
  unfold pme_step
  cases h : configs.lookup n with
  | none => exact hf
  | some cfg => exact update_ne_preserves_not_mem f n _ acc hne hf

theorem pme_fold_mem_of_failing (configs : List (String × ExperimentConfig))
    (env : PrepareEnv) (e : String) (ecfg : ExperimentConfig)
    (hl : configs.lookup e = some ecfg)
    (hf : process_experiment e ecfg env = false) :
    ∀ (ns : List String) (acc : List String), e ∈ acc →
      e ∈ ns.foldl (pme_step configs env) acc := by
  intro ns
  induction ns with
  | nil =>
    intro acc h
    simpa using h
  | cons n ns ih =>
    intro acc h
    rw [List.foldl_cons]
    apply ih
    by_cases hne : e = n
    · subst hne
      have hstep : pme_step configs env acc e =
          update_failed_experiments e (process_experiment e ecfg env) acc := by
        unfold pme_step
        rw [hl]
      rw [hstep, hf]
      unfold update_failed_experiments
      rw [if_neg (by simp)]
      split
      · exact h
      · exact List.mem_append_left _ h
    · exact pme_step_ne_preserves_mem configs env e n acc hne h

theorem pme_fold_records_failing (configs : List (String × ExperimentConfig))
    (env : PrepareEnv) (e : String) (ecfg : ExperimentConfig)
    (hl : configs.lookup e = some ecfg)
    (hf : process_experiment e ecfg env = false) :
    ∀ (ns : List String) (acc : List String), e ∈ ns →
      e ∈ ns.foldl (pme_step configs env) acc := by
  intro ns
  induction ns with
  | nil =>
    intro acc h
    simp at h
  | cons n ns ih =>
    intro acc h
    rw [List.foldl_cons]
    by_cases hmem : e ∈ ns
    · exact ih _ hmem
    · have heq : e = n := by
        rcases List.mem_cons.mp h with h1 | h1
        · exact h1
        · exact absurd h1 hmem
      subst heq
      apply pme_fold_mem_of_failing configs env e ecfg hl hf ns
      have hstep : pme_step configs env acc e =
          update_failed_experiments e (process_experiment e ecfg env) acc := by
        unfold pme_step
        rw [hl]
      rw [hstep, hf]
      unfold update_failed_experiments
      rw [if_neg (by simp)]
      split
      next hc => exact List.mem_of_elem_eq_true hc
      next => exact List.mem_append_right _ (by simp)

theorem pme_fold_stays_out (configs : List (String × ExperimentConfig))
    (env : PrepareEnv) (f : String) (fcfg : ExperimentConfig)
    (hl : configs.lookup f = some fcfg)
    (hs : process_experiment f fcfg env = true) :
    ∀ (ns : List String) (acc : List String), f ∉ acc →
      f ∉ ns.foldl (pme_step configs env) acc := by
  intro ns
  induction ns with
  | nil =>
    intro acc h
    simpa using h
  | cons n ns ih =>
    intro acc h
    rw [List.foldl_cons]
    apply ih
    by_cases hne : f = n
    · subst hne
      have hstep : pme_step configs env acc f =
          update_failed_experiments f (process_experiment f fcfg env) acc := by
        unfold pme_step
        rw [hl]
      rw [hstep, hs]
      unfold update_failed_experiments
      rw [if_pos rfl]
      split
      next hc => exact absurd (List.mem_of_elem_eq_true hc) h
      next => exact h
    · exact pme_step_ne_preserves_not_mem configs env f n acc hne h

theorem pme_step_count_le (configs : List (String × ExperimentConfig))
    (env : PrepareEnv) (f : String) (fcfg : ExperimentConfig)
    (hl : configs.lookup f = some fcfg)
    (hs : process_experiment f fcfg env = true)
    (n : String) (acc : List String) (hcount : acc.count f ≤ 1) :
    (pme_step configs env acc n).count f ≤ 1 := by
  by_cases hne : n = f
  · subst hne
    have hstep : pme_step configs env acc n =
        update_failed_experiments n (process_experiment n fcfg env) acc := by
      unfold pme_step
      rw [hl]
    rw [hstep, hs]
    unfold update_failed_experiments
    rw [if_pos rfl]
    split
    · rw [List.count_erase_self]
      omega
    · exact hcount
  · unfold pme_step
    cases h : configs.lookup n with
    | none => exact hcount
    | some cfg =>
      show (update_failed_experiments n (process_experiment n cfg env) acc).count f ≤ 1
      rw [update_ne_count f n _ acc (fun hh => hne hh.symm)]
      exact hcount

theorem pme_fold_success_removed (configs : List (String × ExperimentConfig))
    (env : PrepareEnv) (f : String) (fcfg : ExperimentConfig)
    (hl : configs.lookup f = some fcfg)
    (hs : process_experiment f fcfg env = true) :
    ∀ (ns : List String) (acc : List String), f ∈ ns → acc.count f ≤ 1 →
      f ∉ ns.foldl (pme_step configs env) acc := by
  intro ns
  induction ns with
  | nil =>
    intro acc h
    simp at h
  | cons n ns ih =>
    intro acc hmem hcount
    rw [List.foldl_cons]
    by_cases hns : f ∈ ns
    · exact ih _ hns (pme_step_count_le configs env f fcfg hl hs n acc hcount)
    · have heq : f = n := by
        rcases List.mem_cons.mp hmem with h1 | h1
        · exact h1
        · exact absurd h1 hns
      subst heq
      apply pme_fold_stays_out configs env f fcfg hl hs ns
      have hstep : pme_step configs env acc f =
          update_failed_experiments f (process_experiment f fcfg env) acc := by
        unfold pme_step
        rw [hl]
      rw [hstep, hs]
      exact not_mem_update_success f acc hcount

theorem entry_matches_false_token_none (d : Nat) (e : TopLogprob)
    (h : e.token = none) : entry_matches d e = false := by
  unfold entry_matches
  rw [h]

theorem entry_matches_false_parse (d : Nat) (e : TopLogprob) (t : String)
    (ht : e.token = some t) (hp : parse_single_digit t ≠ some d) :
    entry_matches d e = false := by
  unfold entry_matches
  rw [ht]
  simp [hp]

theorem entry_matches_false_logprob_none (d : Nat) (e : TopLogprob)
    (h : e.logprob = none) : entry_matches d e = false := by
  unfold entry_matches
  cases ht : e.token with
  | none => rfl
  | some t => simp [h]

theorem entry_matches_true_of (d : Nat) (e : TopLogprob) (t : String) (lp : ℝ)
    (ht : e.token = some t) (hp : parse_single_digit t = some d)
    (hl : e.logprob = some lp) : entry_matches d e = true := by
  unfold entry_matches
  rw [ht]
  simp [hp, hl]

theorem digit_contribution_nil (d : Nat) : digit_contribution d [] = 0 := by
  unfold digit_contribution
  simp [List.find?]

theorem digit_contribution_cons_skip (d : Nat) (e : TopLogprob) (l : List TopLogprob)
    (h : entry_matches d e = false) :
    digit_contribution d (e :: l) = digit_contribution d l := by
  unfold digit_contribution
  rw [List.find?_cons_of_neg _ (by simp [h])]

theorem calc_aux_eq_sum (l : List TopLogprob) :
    ∀ seen : List Nat,
      calc_aux l seen =
        ∑ d ∈ (Finset.Icc 1 7).filter (fun d => d ∉ seen), digit_contribution d l := by
  induction l with
  | nil =>
    intro seen
    simp [calc_aux, digit_contribution_nil]
  | cons e rest ih =>
    intro seen
    cases htok : e.token with
    | none =>
      simp only [calc_aux, htok]
      rw [ih seen]
      refine Finset.sum_congr rfl ?_
      intro d _
      exact (digit_contribution_cons_skip d e rest
        (entry_matches_false_token_none d e htok)).symm
    | some t =>
      cases hpd : parse_single_digit t with
      | none =>
        simp only [calc_aux, htok, hpd]
        rw [ih seen]
        refine Finset.sum_congr rfl ?_
        intro d _
        exact (digit_contribution_cons_skip d e rest
          (entry_matches_false_parse d e t htok (by simp [hpd]))).symm
      | some v =>
        by_cases hrange : 1 ≤ v ∧ v ≤ 7
        · by_cases hseen : v ∈ seen
          · simp only [calc_aux, htok, hpd]
            rw [if_neg (by tauto)]
            rw [ih seen]
            refine Finset.sum_congr rfl ?_
            intro d hd
            have hd' := Finset.mem_filter.mp hd
            have hdv : parse_single_digit t ≠ some d := by
              rw [hpd]
              intro hh
              injection hh with hh
              exact hd'.2 (hh ▸ hseen)
            exact (digit_contribution_cons_skip d e rest
              (entry_matches_false_parse d e t htok hdv)).symm
          · cases hlp : e.logprob with
            | none =>
              simp only [calc_aux, htok, hpd]
              rw [if_pos ⟨hrange.1, hrange.2, hseen⟩]
              simp only [hlp]
              rw [ih seen]
              refine Finset.sum_congr rfl ?_
              intro d _
              exact (digit_contribution_cons_skip d e rest
                (entry_matches_false_logprob_none d e hlp)).symm
            | some lp =>
              simp only [calc_aux, htok, hpd]
              rw [if_pos ⟨hrange.1, hrange.2, hseen⟩]
              simp only [hlp]
              rw [ih (v :: seen)]
              have hv7 : v ∈ Finset.Icc 1 7 := Finset.mem_Icc.mpr hrange
              have hsplit : (Finset.Icc 1 7).filter (fun d => d ∉ seen) =
                  insert v ((Finset.Icc 1 7).filter (fun d => d ∉ v :: seen)) := by
                ext d
                simp only [Finset.mem_filter, Finset.mem_insert, List.mem_cons]
                constructor
                · rintro ⟨hdI, hds⟩
                  by_cases hdv : d = v
                  · exact Or.inl hdv
                  · exact Or.inr ⟨hdI, fun h => h.elim hdv hds⟩
                · rintro (hdv | ⟨hdI, hds⟩)
                  · subst hdv
                    exact ⟨hv7, hseen⟩
                  · exact ⟨hdI, fun h => hds (Or.inr h)⟩
              rw [hsplit, Finset.sum_insert (by simp)]
              congr 1
              · unfold digit_contribution
                rw [List.find?_cons_of_pos _ (entry_matches_true_of v e t lp htok hpd hlp)]
                simp [hlp]
              · refine Finset.sum_congr rfl ?_
                intro d hd
                have hd' := Finset.mem_filter.mp hd
                have hdv : parse_single_digit t ≠ some d := by
                  rw [hpd]
                  intro hh
                  injection hh with hh
                  exact hd'.2 (hh ▸ List.mem_cons_self v seen)
                exact (digit_contribution_cons_skip d e rest
                  (entry_matches_false_parse d e t htok hdv)).symm
        · simp only [calc_aux, htok, hpd]
          rw [if_neg (by tauto)]
          rw [ih seen]
          refine Finset.sum_congr rfl ?_
          intro d hd
          have hd' := Finset.mem_filter.mp hd
          have hdI := Finset.mem_Icc.mp hd'.1
          have hdv : parse_single_digit t ≠ some d := by
            rw [hpd]
            intro hh
            injection hh with hh
            exact hrange (hh ▸ ⟨hdI.1, hdI.2⟩)
          exact (digit_contribution_cons_skip d e rest
            (entry_matches_false_parse d e t htok hdv)).symm

/-! ## Claim theorems -/

/-- C1: `get_batches_to_send` returns exactly those candidate batch files for
which no tracking record exists with the same experiment name, the same batch
file name, and a stored hash equal to the fingerprint of the file's current
content; so an unchanged already-tracked file is never returned, and a file
whose fingerprint changed under the same name is returned. -/
theorem get_batches_to_send_dedup (experiment_name : String)
    (batch_files : List String) (df : List TrackingRecord)
    (get_file_hash : String → String) (b : String) :
    b ∈ get_batches_to_send experiment_name batch_files df get_file_hash ↔
      b ∈ batch_files ∧
        ¬ ∃ r ∈ df, r.experiment_name = experiment_name ∧ r.batch_file = b ∧
          r.file_hash = get_file_hash b := by
  simp only [get_batches_to_send, List.mem_filter, List.isEmpty_iff,
    List.filter_eq_nil, Bool.and_eq_true, beq_iff_eq]
  constructor
  · rintro ⟨hb, hall⟩
    refine ⟨hb, ?_⟩
    rintro ⟨r, hr, h1, h2, h3⟩
    exact hall r ⟨hr, h1⟩ ⟨h2, h3⟩
  · rintro ⟨hb, hnone⟩
    refine ⟨hb, ?_⟩
    rintro r ⟨hr, h1⟩ ⟨h2, h3⟩
    exact hnone ⟨r, hr, h1, h2, h3⟩

/-- C2: when the remote status of a tracked record is reported as the terminal
success value "completed" (and the artifact fetch succeeds), the poller writes
the artifact to a results file named from the experiment prefix, the job id
and the download timestamp, and afterwards no record with that job id remains
in the tracking table and the experiment is absent from the execute-stage
failed registry, even if it was present there before. -/
theorem completed_batch_downloaded_and_cleared
    (remote : String → RemoteOutcome) (date_string content : String)
    (row : TrackingRecord) (st : PollState)
    (hremote : remote row.batch_id = .ok "completed" (some content)) :
    (results_file_name row.experiment_name row.batch_id date_string, content) ∈
        (check_one_openai_batch remote date_string row st).results_files ∧
      (∀ r ∈ (check_one_openai_batch remote date_string row st).tracking,
        r.batch_id ≠ row.batch_id) ∧
      row.experiment_name ∉
        (check_one_openai_batch remote date_string row st).failed_execute := by
  unfold check_one_openai_batch
  rw [hremote]
  simp only [if_pos rfl]
  refine ⟨?_, ?_, ?_⟩
  · simp
  · exact mem_remove_batch_ne row.batch_id _
  · exact not_mem_remove_experiment row.experiment_name _

/-- C2 witness: a concrete completed batch is downloaded, its record removed
and its experiment cleared from the failed registry. -/
theorem completed_batch_downloaded_and_cleared_witness :
    (fun _ : String => RemoteOutcome.ok "completed" (some "out")) sample_record.batch_id =
        RemoteOutcome.ok "completed" (some "out") ∧
      ((results_file_name sample_record.experiment_name sample_record.batch_id "2026-01-02",
          "out") ∈
        (check_one_openai_batch (fun _ => .ok "completed" (some "out")) "2026-01-02"
          sample_record sample_state).results_files ∧
      (∀ r ∈ (check_one_openai_batch (fun _ => .ok "completed" (some "out")) "2026-01-02"
          sample_record sample_state).tracking, r.batch_id ≠ sample_record.batch_id) ∧
      sample_record.experiment_name ∉
        (check_one_openai_batch (fun _ => .ok "completed" (some "out")) "2026-01-02"
          sample_record sample_state).failed_execute) :=
  ⟨rfl, completed_batch_downloaded_and_cleared _ _ _ _ _ rfl⟩

/-- C3: when the remote status of a tracked record is reported as "failed" or
"cancelled", the record is removed from the tracking table and the experiment
name ends up in the execute-stage failed registry exactly once (duplicate
inserts are suppressed), assuming the registry held it at most once before. -/
theorem failed_batch_recorded_once
    (remote : String → RemoteOutcome) (date_string : String)
    (new_status : String) (output : Option String)
    (row : TrackingRecord) (st : PollState)
    (hremote : remote row.batch_id = .ok new_status output)
    (hfail : new_status = "failed" ∨ new_status = "cancelled")
    (hcount : st.failed_execute.count row.experiment_name ≤ 1) :
    (∀ r ∈ (check_one_openai_batch remote date_string row st).tracking,
        r.batch_id ≠ row.batch_id) ∧
      row.experiment_name ∈
        (check_one_openai_batch remote date_string row st).failed_execute ∧
      (check_one_openai_batch remote date_string row st).failed_execute.count
        row.experiment_name = 1 := by
  have hne : new_status ≠ "completed" := by
    rcases hfail with h | h <;> rw [h] <;> decide
  unfold check_one_openai_batch
  rw [hremote]
  simp only [if_neg hne, if_pos hfail]
  by_cases hupd : new_status ≠ row.status
  · simp only [if_pos hupd]
    exact ⟨mem_remove_batch_ne row.batch_id _, mem_add_failed _ _,
      count_add_failed _ _ hcount⟩
  · simp only [if_neg hupd]
    exact ⟨mem_remove_batch_ne row.batch_id _, mem_add_failed _ _,
      count_add_failed _ _ hcount⟩

/-- C3 witness: a concrete cancelled batch is removed from tracking and its
experiment recorded exactly once in the failed registry. -/
theorem failed_batch_recorded_once_witness :
    (fun _ : String => RemoteOutcome.ok "cancelled" none) sample_record.batch_id =
        RemoteOutcome.ok "cancelled" none ∧
      ("cancelled" = "failed" ∨ "cancelled" = "cancelled") ∧
      sample_state.failed_execute.count sample_record.experiment_name ≤ 1 ∧
      ((∀ r ∈ (check_one_openai_batch (fun _ => .ok "cancelled" none) "2026-01-02"
          sample_record sample_state).tracking, r.batch_id ≠ sample_record.batch_id) ∧
      sample_record.experiment_name ∈
        (check_one_openai_batch (fun _ => .ok "cancelled" none) "2026-01-02"
          sample_record sample_state).failed_execute ∧
      (check_one_openai_batch (fun _ => .ok "cancelled" none) "2026-01-02"
          sample_record sample_state).failed_execute.count
        sample_record.experiment_name = 1) :=
  ⟨rfl, Or.inr rfl, by decide,
    failed_batch_recorded_once _ _ _ _ _ _ rfl (Or.inr rfl) (by decide)⟩

/-- C7: loading the tracking table when the persisted file is absent, or when
reading it raises, returns an empty table with exactly the six tracking
columns; the load is a total function, so neither case raises. -/
theorem load_batch_tracking_degrades_to_empty (msg : String) :
    load_batch_tracking .absent = { columns := tracking_columns, rows := [] } ∧
      load_batch_tracking (.readError msg) =
        { columns := tracking_columns, rows := [] } ∧
      tracking_columns = ["experiment_name", "batch_file", "batch_id", "status",
        "timestamp", "file_hash"] :=
  ⟨rfl, rfl, rfl⟩

/-- C8: after a reconciliation pass, the persisted tracking artifact is
removed exactly when the table holds zero records: an existing file with an
empty table is deleted, a file with at least one record is kept, and an
absent file stays absent. -/
theorem cleanup_removes_iff_empty (rows : List TrackingRecord) :
    (rows.length = 0 → cleanup_empty_tracking_file (some rows) = none) ∧
      (rows.length ≠ 0 → cleanup_empty_tracking_file (some rows) = some rows) ∧
      cleanup_empty_tracking_file none = none := by
  refine ⟨?_, ?_, rfl⟩
  · intro h
    simp [cleanup_empty_tracking_file, h]
  · intro h
    simp [cleanup_empty_tracking_file, h]

/-- C8 witness: the empty table deletes the file, a one-record table keeps it. -/
theorem cleanup_removes_iff_empty_witness :
    (([] : List TrackingRecord).length = 0 ∧
        cleanup_empty_tracking_file (some []) = none) ∧
      ([sample_record].length ≠ 0 ∧
        cleanup_empty_tracking_file (some [sample_record]) = some [sample_record]) :=
  ⟨⟨rfl, (cleanup_removes_iff_empty []).1 rfl⟩,
    ⟨by decide, (cleanup_removes_iff_empty [sample_record]).2.1 (by decide)⟩⟩

/-- C9 counterexample: an experiment with no config entry is skipped by
`process_multiple_experiments` without being recorded: running the multi-
experiment loop on the single name "ghost" against an empty config mapping
leaves the prepare-stage failed registry empty, and "ghost" is not in it,
contradicting the claim that a missing config entry gets the experiment
recorded into the prepare-stage failed registry. -/
theorem missing_config_entry_not_recorded :
    process_multiple_experiments ["ghost"] [] empty_env [] = [] ∧
      "ghost" ∉ process_multiple_experiments ["ghost"] [] empty_env [] := by
  constructor
  · simp [process_multiple_experiments, pme_step, List.lookup]
  · simp [process_multiple_experiments, pme_step, List.lookup]

/-- C9 (amended): for every experiment in a multi-experiment run that has a
config entry and whose processing fails (missing required config fields,
missing or unreadable dataset file, or empty prompt file), the experiment
name is recorded in the prepare-stage failed registry at the end of the run;
sibling experiments are still processed — in particular a sibling with a
config entry whose processing succeeds ends the run absent from the registry
(given it appeared there at most once before).  An experiment with no config
entry is skipped with a warning and is not recorded. -/
theorem prepare_missing_input_failures_recorded
    (experiment_names : List String) (all_configs : List (String × ExperimentConfig))
    (env : PrepareEnv) (failed : List String) :
    (∀ e ∈ experiment_names, ∀ ecfg, all_configs.lookup e = some ecfg →
        process_experiment e ecfg env = false →
        e ∈ process_multiple_experiments experiment_names all_configs env failed) ∧
      (∀ f ∈ experiment_names, ∀ fcfg, all_configs.lookup f = some fcfg →
        process_experiment f fcfg env = true → failed.count f ≤ 1 →
        f ∉ process_multiple_experiments experiment_names all_configs env failed) := by
  constructor
  · intro e he ecfg hl hf
    exact pme_fold_records_failing all_configs env e ecfg hl hf experiment_names failed he
  · intro f hf fcfg hl hs hcount
    exact pme_fold_success_removed all_configs env f fcfg hl hs experiment_names failed
      hf hcount

/-- C9 amended-claim witness: in a run over ["bad", "good"] where "bad" has a
config missing the prompt field and "good" processes successfully, the final
registry contains "bad" and not "good". -/
theorem prepare_missing_input_failures_recorded_witness :
    ("bad" ∈ ["bad", "good"] ∧
        [("bad", bad_config), ("good", good_config)].lookup "bad" = some bad_config ∧
        process_experiment "bad" bad_config sample_env = false ∧
        "bad" ∈ process_multiple_experiments ["bad", "good"]
          [("bad", bad_config), ("good", good_config)] sample_env []) ∧
      ("good" ∈ ["bad", "good"] ∧
        [("bad", bad_config), ("good", good_config)].lookup "good" = some good_config ∧
        process_experiment "good" good_config sample_env = true ∧
        ([] : List String).count "good" ≤ 1 ∧
        "good" ∉ process_multiple_experiments ["bad", "good"]
          [("bad", bad_config), ("good", good_config)] sample_env []) := by
  have hlb : [("bad", bad_config), ("good", good_config)].lookup "bad" =
      some bad_config := by
    simp [List.lookup]
  have hlg : [("bad", bad_config), ("good", good_config)].lookup "good" =
      some good_config := by
    simp [List.lookup]
  have hpb : process_experiment "bad" bad_config sample_env = false := by
    simp [process_experiment, bad_config]
  have hchunk : ∀ (x : OpenAITask), (task_chunks 50000 [x]).isEmpty = false := by
    intro x
    have h := task_chunks_getElem? 49999 [x] 0
    rw [show (49999 : Nat) + 1 = 50000 from rfl] at h
    simp only [Nat.mul_zero, List.length_singleton, Nat.zero_lt_one, if_pos,
      List.drop_zero] at h
    cases hc : task_chunks 50000 [x] with
    | nil => rw [hc] at h; simp at h
    | cons a l => simp
  have hps : py_strip "Hola [w].".data = "Hola [w].".data := by decide
  have hpg : process_experiment "good" good_config sample_env = true := by
    simp [process_experiment, good_config, sample_env, create_openai_tasks,
      List.range_succ, hchunk, hps]
  refine ⟨⟨by simp, hlb, hpb, ?_⟩, ⟨by simp, hlg, hpg, by simp, ?_⟩⟩
  · exact (prepare_missing_input_failures_recorded ["bad", "good"]
      [("bad", bad_config), ("good", good_config)] sample_env []).1
      "bad" (by simp) bad_config hlb hpb
  · exact (prepare_missing_input_failures_recorded ["bad", "good"]
      [("bad", bad_config), ("good", good_config)] sample_env []).2
      "good" (by simp) good_config hlg hpg (by simp)

/-- C4: `calculate_weighted_sum_1_to_7` equals the sum, over the first
countable occurrence of each digit 1..7 (token stripping to that single
digit, with a present log-probability), of digit * exp(logprob); entries
with a missing or malformed field contribute zero instead of raising; and on
[("3", log 0.5), ("3", log 0.9), ("5", log 0.25)] the result is
3*0.5 + 5*0.25 = 2.75, the repeated "3" being ignored. -/
theorem calculate_weighted_sum_spec :
    (∀ l : List TopLogprob, calculate_weighted_sum_1_to_7 l = weighted_sum_by_digit l) ∧
      (∀ (l1 l2 : List TopLogprob) (e : TopLogprob),
        e.token = none ∨ e.logprob = none →
        calculate_weighted_sum_1_to_7 (l1 ++ e :: l2) =
          calculate_weighted_sum_1_to_7 (l1 ++ l2)) ∧
      calculate_weighted_sum_1_to_7
          [⟨some "3", some (Real.log 0.5)⟩, ⟨some "3", some (Real.log 0.9)⟩,
            ⟨some "5", some (Real.log 0.25)⟩] = 2.75 := by
  have hmain : ∀ l : List TopLogprob,
      calculate_weighted_sum_1_to_7 l = weighted_sum_by_digit l := by
    intro l
    unfold calculate_weighted_sum_1_to_7 weighted_sum_by_digit
    rw [calc_aux_eq_sum l []]
    refine Finset.sum_congr ?_ (fun d _ => rfl)
    ext d
    simp
  refine ⟨hmain, ?_, ?_⟩
  · intro l1 l2 e he
    have hskip : ∀ d, entry_matches d e = false := by
      intro d
      rcases he with h | h
      · exact entry_matches_false_token_none d e h
      · exact entry_matches_false_logprob_none d e h
    rw [hmain, hmain]
    unfold weighted_sum_by_digit
    refine Finset.sum_congr rfl ?_
    intro d _
    unfold digit_contribution
    rw [List.find?_append, List.find?_append,
      List.find?_cons_of_neg _ (by simp [hskip d])]
  · have h3 : parse_single_digit "3" = some 3 := by decide
    have h5 : parse_single_digit "5" = some 5 := by decide
    norm_num [calculate_weighted_sum_1_to_7, calc_aux, h3, h5]
    rw [Real.exp_log (by norm_num), Real.exp_log (by norm_num)]
    norm_num

/-- C4 witness: a fully malformed entry (both fields missing) contributes
nothing to the weighted sum. -/
theorem calculate_weighted_sum_spec_witness :
    ((⟨none, none⟩ : TopLogprob).token = none ∨
        (⟨none, none⟩ : TopLogprob).logprob = none) ∧
      calculate_weighted_sum_1_to_7 ([] ++ (⟨none, none⟩ : TopLogprob) :: []) =
        calculate_weighted_sum_1_to_7 ([] ++ []) :=
  ⟨Or.inl rfl, calculate_weighted_sum_spec.2.1 [] [] ⟨none, none⟩ (Or.inl rfl)⟩

/-- C10: the chunking of `create_batch_files` partitions the task list
order-preservingly into consecutive chunks of 50000: chunk i holds the tasks
at positions [50000*i, 50000*(i+1)), no chunk exceeds 50000 tasks, every
chunk but possibly the last holds exactly 50000 tasks, and concatenating the
chunks in index order restores the original list. -/
theorem create_batch_files_chunking {α : Type} (tasks : List α) :
    (task_chunks 50000 tasks).join = tasks ∧
      (∀ i : Nat, (task_chunks 50000 tasks)[i]? =
        if 50000 * i < tasks.length then
          some ((tasks.drop (50000 * i)).take 50000)
        else none) ∧
      (∀ ch ∈ task_chunks 50000 tasks, ch.length ≤ 50000) ∧
      (∀ i : Nat, i + 1 < (task_chunks 50000 tasks).length →
        ∃ ch, (task_chunks 50000 tasks)[i]? = some ch ∧ ch.length = 50000) := by
  have h50 : (50000 : Nat) = 49999 + 1 := rfl
  refine ⟨?_, ?_, ?_, ?_⟩
  · rw [h50]; exact task_chunks_join 49999 tasks
  · intro i
    rw [h50]
    exact task_chunks_getElem? 49999 tasks i
  · rw [h50]; exact task_chunks_length_le 49999 tasks
  · intro i hi
    have hnext := task_chunks_getElem? 49999 tasks (i + 1)
    rw [← h50] at hnext
    have hsome : (task_chunks 50000 tasks)[i + 1]?.isSome := by
      rw [List.getElem?_eq_getElem hi]
      rfl
    have hcond : 50000 * (i + 1) < tasks.length := by
      by_contra hc
      rw [hnext, if_neg hc] at hsome
      simp at hsome
    have hi' : 50000 * i < tasks.length := by omega
    have hget := task_chunks_getElem? 49999 tasks i
    rw [← h50] at hget
    refine ⟨(tasks.drop (50000 * i)).take 50000, ?_, ?_⟩
    · rw [hget, if_pos hi']
    · rw [List.length_take, List.length_drop]
      omega

/-- C5 counterexample: in the template "Di [p] y [p]." the later bracketed
span "[p]" is identical to the first, and the task builder substitutes it as
well: the rendered prompt is "Di w y w." and the later span does not survive
as literal text, refuting the claim that every later bracketed span is left
literal. -/
theorem later_identical_span_substituted :
    (create_openai_tasks ["w".data] "Di [p] y [p].".data none "exp1").map
        (fun t => t.content) = ["Di w y w.".data] ∧
      ¬ ("[p]".data <:+: "Di w y w.".data) := by
  constructor
  · have hspan : find_bracket_span "Di [p] y [p].".data = some "p".data := by decide
    have hstrip : py_strip "w".data = "w".data := by decide
    have hkey : ('[' : Char) :: ("p".data ++ [']']) = "[p]".data := by decide
    have hrepl : replace_all "[p]".data "w".data "Di [p] y [p].".data =
        "Di w y w.".data := by
      simp [replace_all]
    simp [create_openai_tasks, hspan, hstrip, hkey, hrepl, List.range_succ]
  · decide

/-- C5 (amended): for a template made of bracket-free literal segments
interleaved with non-empty bracket-free spans, the task builder takes the
first bracketed span as the placeholder and substitutes every occurrence of
that exact placeholder text with the (stripped) word — so later spans
identical to the first are substituted too — while every later bracketed
span whose content differs from the first is left as literal text. -/
theorem first_span_placeholder_substitution
    (word : List Char) (seg0 sp1 seg1 : List Char)
    (rest : List (List Char × List Char)) (cfg_key : Option (List Char))
    (experiment_name : String)
    (h0 : seg_ok seg0) (h1 : span_ok sp1) (hseg1 : seg_ok seg1)
    (hrest : ∀ pr ∈ rest, span_ok pr.1 ∧ seg_ok pr.2) :
    (create_openai_tasks [word] (assemble seg0 ((sp1, seg1) :: rest)) cfg_key
        experiment_name).map (fun t => t.content) =
      [subst_spans sp1 (py_strip word) seg0 ((sp1, seg1) :: rest)] := by
  have hfind : find_bracket_span (assemble seg0 ((sp1, seg1) :: rest)) = some sp1 := by
    rw [assemble]
    rw [show seg0 ++ ('[' :: (sp1 ++ [']'])) ++ assemble seg1 rest =
      seg0 ++ ('[' :: (sp1 ++ ']' :: assemble seg1 rest)) by simp]
    rw [find_bracket_span_skip_seg seg0 _ h0.1]
    exact find_bracket_span_at_span sp1 _ h1
  have hrepl := replace_all_assemble sp1 (py_strip word) h1 ((sp1, seg1) :: rest) seg0 h0
    (by
      intro pr hpr
      cases hpr with
      | head => exact ⟨h1, hseg1⟩
      | tail _ hm => exact hrest pr hm)
  simp [create_openai_tasks, hfind, hrepl, List.range_succ]

/-- C5 amended-claim witness: the template "Di [p] y [q]." with word "w"
renders to "Di w y [q]." — the differing later span stays literal. -/
theorem first_span_placeholder_substitution_witness :
    (seg_ok "Di ".data ∧ span_ok "p".data ∧ seg_ok " y ".data ∧
        (∀ pr ∈ [("q".data, ".".data)], span_ok pr.1 ∧ seg_ok pr.2)) ∧
      (create_openai_tasks ["w".data]
          (assemble "Di ".data [("p".data, " y ".data), ("q".data, ".".data)]) none
          "exp1").map (fun t => t.content) =
        [subst_spans "p".data (py_strip "w".data) "Di ".data
          [("p".data, " y ".data), ("q".data, ".".data)]] :=
  ⟨⟨by decide, by decide, by decide, by decide⟩,
    first_span_placeholder_substitution "w".data "Di ".data "p".data " y ".data
      [("q".data, ".".data)] none "exp1" (by decide) (by decide) (by decide) (by decide)⟩

/-- C6: rendering the template "La expresión es: [palabra]." with the word
"correr" through the task builder and then applying extract_word_input to
the rendered prompt recovers exactly "correr". -/
theorem render_extract_round_trip :
    (create_openai_tasks ["correr".data] "La expresión es: [palabra].".data none
        "familiarity").map (fun t => extract_word_input t.content) =
      [some "correr".data] := by
  have hspan : find_bracket_span "La expresión es: [palabra].".data =
      some "palabra".data := by decide
  have hstrip : py_strip "correr".data = "correr".data := by decide
  have hkey : ('[' : Char) :: ("palabra".data ++ [']']) = "[palabra]".data := by decide
  have hrepl : replace_all "[palabra]".data "correr".data
      "La expresión es: [palabra].".data = "La expresión es: correr.".data := by
    simp [replace_all]
  have hex : extract_word_input "La expresión es: correr.".data =
      some "correr".data := by decide
  simp [create_openai_tasks, hspan, hstrip, hkey, hrepl, hex, List.range_succ]

/-- C10 witness: the chunking facts instantiated on a concrete list. -/
theorem create_batch_files_chunking_witness :
    (task_chunks 50000 [1, 2, 3]).join = [1, 2, 3] ∧
      (task_chunks 50000 [1, 2, 3])[0]? =
        if 50000 * 0 < ([1, 2, 3] : List Nat).length then
          some ((([1, 2, 3] : List Nat).drop (50000 * 0)).take 50000)
        else none :=
  ⟨(create_batch_files_chunking [1, 2, 3]).1,
    (create_batch_files_chunking [1, 2, 3]).2.1 0⟩

end ExpressionSpanish
